import Mathlib

/-!
Verification of the weather-forecast normalisation core of this repository.

Part A shallowly embeds the pure functions of src/app.js:
  summariseForecast, formatRelativeTime, getWeatherEmoji,
  getWeatherDescription, getHourlyValue.
Time values are modelled as integers (epoch milliseconds or seconds; the
code only compares and subtracts them), temperatures as rationals (the code
only compares and selects them, so the ordered-field structure is all that
matters), JavaScript `undefined` as `Option.none`, and a field that may be
"missing or not an array" as an `Option (List _)`.

Part B models, from the specification, the Day Aggregator
(`aggregateByLocalDay` / `selectRepresentative`) of the repository's
discrete-sample provider variant, which is not among the provided source
files; those definitions carry a "Modelled from the spec" doc comment.
-/

namespace WeatherVue

/-! ### Part A: embedding of src/app.js -/

/-- Embeds `getWeatherEmoji` (src/app.js lines 305-317): a chain of
membership tests on literal code lists, falling back to a cloud emoji. -/
def getWeatherEmoji (code : Int) : String :=
  if code ∈ ([0] : List Int) then "☀️"
  else if code ∈ ([1, 2, 3] : List Int) then "⛅"
  else if code ∈ ([45, 48] : List Int) then "🌫️"
  else if code ∈ ([51, 53, 55, 56, 57] : List Int) then "🌦️"
  else if code ∈ ([61, 63, 65] : List Int) then "🌧️"
  else if code ∈ ([66, 67] : List Int) then "🌧️"
  else if code ∈ ([71, 73, 75, 77] : List Int) then "❄️"
  else if code ∈ ([80, 81, 82] : List Int) then "🌧️"
  else if code ∈ ([85, 86] : List Int) then "❄️"
  else if code ∈ ([95, 96, 99] : List Int) then "⛈️"
  else "☁️"

/-- The `descriptions` map literal of `getWeatherDescription`
(src/app.js lines 326-355): entries keyed by singleton code lists,
iterated in order. -/
def weatherTable : List (List Int × String) :=
  [([0], "Clear sky"),
   ([1], "Mainly clear"),
   ([2], "Partly cloudy"),
   ([3], "Overcast"),
   ([45], "Fog"),
   ([48], "Depositing rime fog"),
   ([51], "Light drizzle"),
   ([53], "Moderate drizzle"),
   ([55], "Dense drizzle"),
   ([56], "Light freezing drizzle"),
   ([57], "Dense freezing drizzle"),
   ([61], "Slight rain"),
   ([63], "Moderate rain"),
   ([65], "Heavy rain"),
   ([66], "Light freezing rain"),
   ([67], "Heavy freezing rain"),
   ([71], "Slight snowfall"),
   ([73], "Moderate snowfall"),
   ([75], "Heavy snowfall"),
   ([77], "Snow grains"),
   ([80], "Slight rain showers"),
   ([81], "Moderate rain showers"),
   ([82], "Violent rain showers"),
   ([85], "Slight snow showers"),
   ([86], "Heavy snow showers"),
   ([95], "Thunderstorm"),
   ([96], "Thunderstorm with light hail"),
   ([99], "Thunderstorm with heavy hail")]

/-- Embeds `getWeatherDescription` (src/app.js lines 325-364): scan the
table for the first entry whose code list contains the code, otherwise
return the fallback text. -/
def getWeatherDescription (code : Int) : String :=
  match weatherTable.find? (fun p => decide (code ∈ p.1)) with
  | some p => p.2
  | none => "Unknown conditions"

/-- Every condition code that appears in either mapping table of
src/app.js. -/
def mappedCodes : List Int :=
  [0, 1, 2, 3, 45, 48, 51, 53, 55, 56, 57, 61, 63, 65, 66, 67,
   71, 73, 75, 77, 80, 81, 82, 85, 86, 95, 96, 99]

/-- The `daily` section of the Open-Meteo payload as consumed by
`summariseForecast` (src/app.js lines 233-245). A field equal to `none`
models a value that is missing or not an array (the code guards each
column with `Array.isArray`). -/
structure Daily where
  time : Option (List Int)
  weathercode : Option (List Int)
  temperature_2m_max : Option (List Rat)
  temperature_2m_min : Option (List Rat)

/-- One record of the list built by `summariseForecast`: `undefined`
fields (an index beyond a column's length) are `none`. -/
structure ForecastDay where
  date : Int
  weathercode : Option Int
  max : Option Rat
  min : Option Rat
deriving DecidableEq

/-- The `times.map((time, index) => ...)` stage of `summariseForecast`
(src/app.js lines 239-243), before sorting: `List.enum` pairs each
timestamp with its index, and out-of-range column reads give `none`. -/
def summariseEntries (daily : Daily) : List ForecastDay :=
  let times := daily.time.getD []
  let weatherCodes := daily.weathercode.getD []
  let maxTemps := daily.temperature_2m_max.getD []
  let minTemps := daily.temperature_2m_min.getD []
  times.enum.map (fun p =>
    { date := p.2
      weathercode := weatherCodes[p.1]?
      max := maxTemps[p.1]?
      min := minTemps[p.1]? })

/-- Embeds `summariseForecast` (src/app.js lines 233-245): map the
timestamp column to records, then `.sort((a, b) => a.date - b.date)`,
modelled by a stable merge sort on the numeric date. -/
def summariseForecast (daily : Daily) : List ForecastDay :=
  (summariseEntries daily).mergeSort (fun a b => decide (a.date ≤ b.date))

/-- Embeds `getHourlyValue` (src/app.js lines 373-378): `none` input
models a non-array `values`, a negative or too-large index yields
`undefined` (`none`), otherwise the element at the index is returned. -/
def getHourlyValue (values : Option (List Rat)) (index : Int) : Option Rat :=
  match values with
  | none => none
  | some vs =>
    if index < 0 ∨ (vs.length : Int) ≤ index then none
    else vs[index.toNat]?

/-- The unit of phrase chosen by `formatRelativeTime`, abstracting the
`Intl.RelativeTimeFormat` strings down to the selected unit and the
signed rounded count it is given. -/
inductive RelPhrase where
  | justNow : RelPhrase
  | minutes : Int → RelPhrase
  | hours : Int → RelPhrase
  | days : Int → RelPhrase
deriving DecidableEq

/-- JavaScript `Math.round`: round half toward positive infinity. -/
def jsRound (q : Rat) : Int := ⌊q + 1 / 2⌋

/-- Embeds `formatRelativeTime` (src/app.js lines 253-273) applied to a
date and a value of `Date.now()`, both in epoch milliseconds. -/
def formatRelativeTime (dateMs nowMs : Int) : RelPhrase :=
  let diffInMs := dateMs - nowMs
  let minutes := jsRound ((diffInMs : Rat) / (1000 * 60))
  let hours := jsRound ((diffInMs : Rat) / (1000 * 60 * 60))
  let days := jsRound ((diffInMs : Rat) / (1000 * 60 * 60 * 24))
  if |diffInMs| < 45 * 1000 then RelPhrase.justNow
  else if |minutes| < 60 then RelPhrase.minutes minutes
  else if |hours| < 24 then RelPhrase.hours hours
  else RelPhrase.days days

/-! ### Part B: the Day Aggregator, modelled from the specification

The repository's weather core exists in two provider variants (spec
section 2); only the columnar Open-Meteo variant (src/app.js) is among
the provided source files. The discrete-sample variant's Day Aggregator
(`aggregateByLocalDay`, `selectRepresentative`, spec section 4.2) is
missing from the sources, so it is modelled here from the spec's own
algorithm description. -/

/-- Modelled from the spec: `WeatherSample` (spec section 3), the uniform
sample record produced by the Sample Extractor of the missing
discrete-sample provider variant. `timestampUtc` is in epoch seconds;
absent metrics are `none`. -/
structure WeatherSample where
  timestampUtc : Int
  temperature : Rat
  temperatureMin : Option Rat
  temperatureMax : Option Rat
  conditionCode : Int
  apparentTemperature : Option Rat
  humidityPercent : Option Rat
  pressureHpa : Option Rat

/-- Modelled from the spec: `DaySummary` (spec section 3). `localDate`
is the local calendar day, counted in days from the epoch. -/
structure DaySummary where
  localDate : Int
  minTemperature : Rat
  maxTemperature : Rat
  representativeConditionCode : Int
  representativeDescription : String

/-- Modelled from the spec: a sample's local calendar day,
`(timestampUtc + timezoneOffsetSeconds)` truncated to a date (spec
section 4.2 step 1) — floor division of the shifted instant by 86400
seconds. -/
def localDay (off : Int) (s : WeatherSample) : Int :=
  (s.timestampUtc + off).fdiv 86400

/-- Modelled from the spec: a sample's local hour-of-day under the given
offset (`emod` keeps the seconds-into-day nonnegative). -/
def localHourOfDay (off : Int) (s : WeatherSample) : Int :=
  ((s.timestampUtc + off).emod 86400) / 3600

/-- Modelled from the spec: distance of a sample's local hour-of-day
from 12:00, the quantity minimised by representative selection (spec
section 4.2 step 3). -/
def distFromNoon (off : Int) (s : WeatherSample) : Int :=
  |localHourOfDay off s - 12|

/-- Modelled from the spec: the low bound a sample contributes —
`temperatureMin`, or `temperature` when absent (spec section 4.2
step 3). -/
def sampleLow (s : WeatherSample) : Rat :=
  s.temperatureMin.getD s.temperature

/-- Modelled from the spec: the high bound a sample contributes —
`temperatureMax`, or `temperature` when absent (spec section 4.2
step 3). -/
def sampleHigh (s : WeatherSample) : Rat :=
  s.temperatureMax.getD s.temperature

/-- Modelled from the spec: the linear scan with running best-distance
tracking described in spec section 9, replacing the running best only on
a strictly smaller distance so that the earliest-seen sample wins
ties. -/
def pickBest (off : Int) : WeatherSample → List WeatherSample → WeatherSample
  | best, [] => best
  | best, s :: rest =>
    if distFromNoon off s < distFromNoon off best then pickBest off s rest
    else pickBest off best rest

/-- Modelled from the spec: `selectRepresentative(bucket)` (spec section
4.2) — the bucket member whose local hour-of-day is closest to 12:00,
ties broken by first-seen order; `none` only for an empty bucket. -/
def selectRepresentative (off : Int) : List WeatherSample → Option WeatherSample
  | [] => none
  | h :: t => some (pickBest off h t)

/-- Modelled from the spec: the bucket of samples sharing the local
calendar day `d`, in arrival order (spec section 4.2 step 2). -/
def bucketOf (samples : List WeatherSample) (off d : Int) : List WeatherSample :=
  samples.filter (fun s => decide (localDay off s = d))

/-- Modelled from the spec: the distinct local calendar days present in
the input, in ascending order (spec section 4.2 step 5). -/
def dayKeys (samples : List WeatherSample) (off : Int) : List Int :=
  ((samples.map (localDay off)).dedup).mergeSort (fun a b => decide (a ≤ b))

/-- Modelled from the spec: the reduction of one bucket (spec section
4.2 steps 3-4): fold `min` over the samples' low bounds and `max` over
their high bounds, and populate the representative fields from the
selected representative's condition code and its mapped description.
The empty-bucket arm is never reached from `aggregateByLocalDay`. -/
def reduceBucket (off d : Int) : List WeatherSample → DaySummary
  | [] =>
    { localDate := d
      minTemperature := 0
      maxTemperature := 0
      representativeConditionCode := 0
      representativeDescription := getWeatherDescription 0 }
  | h :: t =>
    let rep := pickBest off h t
    { localDate := d
      minTemperature := t.foldl (fun acc s => min acc (sampleLow s)) (sampleLow h)
      maxTemperature := t.foldl (fun acc s => max acc (sampleHigh s)) (sampleHigh h)
      representativeConditionCode := rep.conditionCode
      representativeDescription := getWeatherDescription rep.conditionCode }

/-- Modelled from the spec: `aggregateByLocalDay(samples,
timezoneOffsetSeconds)` (spec section 4.2) — one reduced summary per
distinct local calendar day, emitted in ascending day order. -/
def aggregateByLocalDay (samples : List WeatherSample) (off : Int) : List DaySummary :=
  (dayKeys samples off).map (fun d => reduceBucket off d (bucketOf samples off d))

/-- The spec's section 8 scenario sample: UTC instant 2024-01-01T16:00Z
(epoch second 1704124800), metrics irrelevant to bucketing. -/
def sampleJan1T16Z : WeatherSample :=
  { timestampUtc := 1704124800
    temperature := 10
    temperatureMin := none
    temperatureMax := none
    conditionCode := 3
    apparentTemperature := none
    humidityPercent := none
    pressureHpa := none }

/-- A sample whose reported overnight low (10) exceeds its instantaneous
temperature (5) while no high is reported; it exercises the fallback
arms of the bucket reduction. -/
def lowAboveTempSample : WeatherSample :=
  { timestampUtc := 0
    temperature := 5
    temperatureMin := some 10
    temperatureMax := none
    conditionCode := 0
    apparentTemperature := none
    humidityPercent := none
    pressureHpa := none }

/-- A sample at local hour 11 (offset 0), condition code 1. -/
def hour11Sample : WeatherSample :=
  { timestampUtc := 39600
    temperature := 8
    temperatureMin := none
    temperatureMax := none
    conditionCode := 1
    apparentTemperature := none
    humidityPercent := none
    pressureHpa := none }

/-- A sample at local hour 13 (offset 0), condition code 2: equidistant
from noon with `hour11Sample` but later in the sequence. -/
def hour13Sample : WeatherSample :=
  { timestampUtc := 46800
    temperature := 9
    temperatureMin := none
    temperatureMax := none
    conditionCode := 2
    apparentTemperature := none
    humidityPercent := none
    pressureHpa := none }

/-! ### Helper lemmas -/

theorem summariseEntries_getElem (daily : Daily) (i : Nat) :
    (summariseEntries daily)[i]? =
      ((daily.time.getD [])[i]?).map (fun t =>
        { date := t
          weathercode := (daily.weathercode.getD [])[i]?
          max := (daily.temperature_2m_max.getD [])[i]?
          min := (daily.temperature_2m_min.getD [])[i]? }) := by
  simp only [summariseEntries, List.getElem?_map, List.getElem?_enum, Option.map_map]
  rfl

theorem summariseForecast_perm (daily : Daily) :
    (summariseForecast daily).Perm (summariseEntries daily) :=
  List.mergeSort_perm _ _

theorem weatherTable_text_ne_empty : ∀ q ∈ weatherTable, q.2 ≠ "" := by
  decide

theorem weatherTable_keys_mapped :
    ∀ q ∈ weatherTable, ∀ c ∈ q.1, c ∈ mappedCodes := by
  decide

/-! ### Claim theorems -/

/-- C10: `getHourlyValue(values, index)` is total and guarded — it
returns the element at `index` when `values` is an array and
`0 <= index < values.length`, and `undefined` (modelled `none`, never a
thrown error) when `values` is not an array or the index is out of
range. -/
theorem getHourlyValue_guarded (values : Option (List Rat)) (vs : List Rat) (index : Int) :
    getHourlyValue none index = none ∧
    (index < 0 → getHourlyValue values index = none) ∧
    ((vs.length : Int) ≤ index → getHourlyValue (some vs) index = none) ∧
    (0 ≤ index → index < (vs.length : Int) →
      getHourlyValue (some vs) index = vs[index.toNat]? ∧
      (getHourlyValue (some vs) index).isSome = true) := by
  refine ⟨rfl, ?_, ?_, ?_⟩
  · intro h
    cases values with
    | none => rfl
    | some vs' => simp [getHourlyValue, h]
  · intro h
    simp [getHourlyValue, h]
  · intro h0 h1
    have hc : ¬(index < 0 ∨ (vs.length : Int) ≤ index) := by omega
    constructor
    · simp [getHourlyValue, hc]
    · simp only [getHourlyValue, if_neg hc]
      rw [List.getElem?_eq_getElem (by omega)]
      rfl

/-- C10 witness: the guarded lookup evaluated at a concrete in-range
index. -/
theorem getHourlyValue_guarded_witness :
    (0 : Int) ≤ 1 ∧ (1 : Int) < (([10, 20, 30] : List Rat).length : Int) ∧
      getHourlyValue (some [10, 20, 30]) 1 = ([10, 20, 30] : List Rat)[(1 : Int).toNat]? ∧
      (getHourlyValue (some [10, 20, 30]) 1).isSome = true := by
  refine ⟨by decide, by decide, ?_⟩
  exact (getHourlyValue_guarded (some [10, 20, 30]) [10, 20, 30] 1).2.2.2
    (by decide) (by decide)

/-- C6: the core never raises for missing or malformed optional data —
a missing or non-array `daily.time` makes `summariseForecast` return the
empty list, an empty timestamp column likewise, and an empty sample
sequence aggregates to an empty `DaySummary` sequence. -/
theorem core_tolerates_missing_data (off : Int) :
    (∀ daily : Daily, daily.time = none → summariseForecast daily = []) ∧
    (∀ daily : Daily, daily.time = some [] → summariseForecast daily = []) ∧
    aggregateByLocalDay [] off = [] := by
  refine ⟨?_, ?_, ?_⟩
  · intro daily h
    simp [summariseForecast, summariseEntries, h]
  · intro daily h
    simp [summariseForecast, summariseEntries, h]
  · simp [aggregateByLocalDay, dayKeys]

/-- C6 witness: a payload whose `daily` section has no usable columns at
all produces the empty forecast list, and the empty sample sequence
produces the empty summary sequence. -/
theorem core_tolerates_missing_data_witness :
    summariseForecast
        { time := none, weathercode := none
          temperature_2m_max := none, temperature_2m_min := none } = [] ∧
      aggregateByLocalDay [] 0 = [] :=
  ⟨(core_tolerates_missing_data 0).1 _ rfl, (core_tolerates_missing_data 0).2.2⟩

/-- C4: the condition-code mapping is total over all integers — every
code yields a non-empty emoji and a non-empty description, and every
code outside the mapped set falls back to the cloud emoji and the
"Unknown conditions" text rather than an error or missing value. -/
theorem describeCondition_total (code : Int) :
    getWeatherEmoji code ≠ "" ∧ getWeatherDescription code ≠ "" ∧
    (code ∉ mappedCodes →
      getWeatherEmoji code = "☁️" ∧
        getWeatherDescription code = "Unknown conditions") := by
  refine ⟨?_, ?_, ?_⟩
  · unfold getWeatherEmoji
    repeat' split
    all_goals decide
  · cases hf : weatherTable.find? (fun p => decide (code ∈ p.1)) with
    | none => simp [getWeatherDescription, hf]
    | some p =>
      have hmem := List.mem_of_find?_eq_some hf
      have hne := weatherTable_text_ne_empty p hmem
      simp [getWeatherDescription, hf, hne]
  · intro h
    have hnot : ∀ l : List Int, (∀ c ∈ l, c ∈ mappedCodes) → code ∉ l :=
      fun l hl hm => h (hl _ hm)
    constructor
    · unfold getWeatherEmoji
      rw [if_neg (hnot _ (by decide)), if_neg (hnot _ (by decide)),
        if_neg (hnot _ (by decide)), if_neg (hnot _ (by decide)),
        if_neg (hnot _ (by decide)), if_neg (hnot _ (by decide)),
        if_neg (hnot _ (by decide)), if_neg (hnot _ (by decide)),
        if_neg (hnot _ (by decide)), if_neg (hnot _ (by decide))]
    · have hnone : weatherTable.find? (fun p => decide (code ∈ p.1)) = none := by
        refine List.find?_eq_none.mpr ?_
        intro p hp
        simp only [decide_eq_true_eq]
        intro hc
        exact h (weatherTable_keys_mapped p hp code hc)
      simp [getWeatherDescription, hnone]

/-- C4 witness: the unmapped code 9999 resolves to the non-empty
fallback entries. -/
theorem describeCondition_total_witness :
    (9999 : Int) ∉ mappedCodes ∧
      getWeatherEmoji 9999 = "☁️" ∧
      getWeatherDescription 9999 = "Unknown conditions" :=
  ⟨by decide, (describeCondition_total 9999).2.2 (by decide)⟩

theorem minutes_abs_lt_iff (d : Int) :
    |jsRound ((d : Rat) / (1000 * 60))| < 60 ↔ -3570000 ≤ d ∧ d < 3570000 := by
  unfold jsRound
  rw [abs_lt]
  constructor
  · rintro ⟨h1, h2⟩
    have h1' : (-59 : Int) ≤ ⌊(d : Rat) / (1000 * 60) + 1 / 2⌋ := by omega
    have h1r := Int.le_floor.mp h1'
    have h2r := Int.floor_lt.mp h2
    push_cast at h1r h2r
    constructor
    · have hq : (-3570000 : Rat) ≤ (d : Rat) := by linarith
      exact_mod_cast hq
    · have hq : (d : Rat) < (3570000 : Rat) := by linarith
      exact_mod_cast hq
  · rintro ⟨h1, h2⟩
    have h1r : (-3570000 : Rat) ≤ (d : Rat) := by exact_mod_cast h1
    have h2r : (d : Rat) < (3570000 : Rat) := by exact_mod_cast h2
    have hlo : (-59 : Int) ≤ ⌊(d : Rat) / (1000 * 60) + 1 / 2⌋ :=
      Int.le_floor.mpr (by push_cast; linarith)
    have hhi : ⌊(d : Rat) / (1000 * 60) + 1 / 2⌋ < 60 :=
      Int.floor_lt.mpr (by push_cast; linarith)
    omega

theorem hours_abs_lt_iff (d : Int) :
    |jsRound ((d : Rat) / (1000 * 60 * 60))| < 24 ↔
      -84600000 ≤ d ∧ d < 84600000 := by
  unfold jsRound
  rw [abs_lt]
  constructor
  · rintro ⟨h1, h2⟩
    have h1' : (-23 : Int) ≤ ⌊(d : Rat) / (1000 * 60 * 60) + 1 / 2⌋ := by omega
    have h1r := Int.le_floor.mp h1'
    have h2r := Int.floor_lt.mp h2
    push_cast at h1r h2r
    constructor
    · have hq : (-84600000 : Rat) ≤ (d : Rat) := by linarith
      exact_mod_cast hq
    · have hq : (d : Rat) < (84600000 : Rat) := by linarith
      exact_mod_cast hq
  · rintro ⟨h1, h2⟩
    have h1r : (-84600000 : Rat) ≤ (d : Rat) := by exact_mod_cast h1
    have h2r : (d : Rat) < (84600000 : Rat) := by exact_mod_cast h2
    have hlo : (-23 : Int) ≤ ⌊(d : Rat) / (1000 * 60 * 60) + 1 / 2⌋ :=
      Int.le_floor.mpr (by push_cast; linarith)
    have hhi : ⌊(d : Rat) / (1000 * 60 * 60) + 1 / 2⌋ < 24 :=
      Int.floor_lt.mpr (by push_cast; linarith)
    omega

/-- C8 counterexample: a difference of 3,570,000 ms — 59.5 minutes, so
under 60 minutes in magnitude and at least 45 seconds — is phrased in
hours, not minutes: the code compares the rounded minute count (60) to
the threshold, not the raw magnitude. -/
theorem formatRelativeTime_under_hour_counterexample :
    (45 * 1000 : Int) ≤ 3570000 ∧ (3570000 : Int) < 60 * 60 * 1000 ∧
      formatRelativeTime 3570000 0 = RelPhrase.hours 1 := by
  refine ⟨by decide, by decide, ?_⟩
  norm_num [formatRelativeTime, jsRound]

/-- C8 (amended): unit selection works on rounded unit counts, so the
effective boundaries sit half a unit early — "just now" for a magnitude
under 45 s; otherwise minutes while the difference lies in
[-59.5 min, 59.5 min); otherwise hours while it lies in
[-23.5 h, 23.5 h); otherwise days. Each phrase carries the JavaScript
`Math.round` of the difference in its unit. -/
theorem formatRelativeTime_unit_selection (dateMs nowMs : Int) :
    (|dateMs - nowMs| < 45000 →
      formatRelativeTime dateMs nowMs = RelPhrase.justNow) ∧
    (45000 ≤ |dateMs - nowMs| →
      -3570000 ≤ dateMs - nowMs → dateMs - nowMs < 3570000 →
      formatRelativeTime dateMs nowMs =
        RelPhrase.minutes (jsRound (((dateMs - nowMs : Int) : Rat) / (1000 * 60)))) ∧
    (dateMs - nowMs < -3570000 ∨ 3570000 ≤ dateMs - nowMs →
      -84600000 ≤ dateMs - nowMs → dateMs - nowMs < 84600000 →
      formatRelativeTime dateMs nowMs =
        RelPhrase.hours (jsRound (((dateMs - nowMs : Int) : Rat) / (1000 * 60 * 60)))) ∧
    (dateMs - nowMs < -84600000 ∨ 84600000 ≤ dateMs - nowMs →
      formatRelativeTime dateMs nowMs =
        RelPhrase.days (jsRound (((dateMs - nowMs : Int) : Rat) / (1000 * 60 * 60 * 24)))) := by
  refine ⟨?_, ?_, ?_, ?_⟩
  · intro h
    unfold formatRelativeTime
    rw [if_pos (by omega)]
  · intro h45 hlo hhi
    unfold formatRelativeTime
    rw [if_neg (by omega), if_pos ((minutes_abs_lt_iff _).mpr ⟨hlo, hhi⟩)]
  · intro hout hlo hhi
    have h45 : ¬|dateMs - nowMs| < 45 * 1000 := by
      rcases hout with h | h <;> (rw [abs_lt]; push_neg; omega)
    have hmin : ¬|jsRound (((dateMs - nowMs : Int) : Rat) / (1000 * 60))| < 60 := by
      intro hc
      have := (minutes_abs_lt_iff _).mp hc
      omega
    unfold formatRelativeTime
    rw [if_neg h45, if_neg hmin, if_pos ((hours_abs_lt_iff _).mpr ⟨hlo, hhi⟩)]
  · intro hout
    have h45 : ¬|dateMs - nowMs| < 45 * 1000 := by
      rcases hout with h | h <;> (rw [abs_lt]; push_neg; omega)
    have hmin : ¬|jsRound (((dateMs - nowMs : Int) : Rat) / (1000 * 60))| < 60 := by
      intro hc
      have := (minutes_abs_lt_iff _).mp hc
      omega
    have hhr : ¬|jsRound (((dateMs - nowMs : Int) : Rat) / (1000 * 60 * 60))| < 24 := by
      intro hc
      have := (hours_abs_lt_iff _).mp hc
      omega
    unfold formatRelativeTime
    rw [if_neg h45, if_neg hmin, if_neg hhr]

/-- C9: columnar summarisation preserves per-index association — the
output has exactly one record per timestamp, and every record's weather
code, max and min are the column values stored at the same index as the
record's timestamp, the sort having permuted whole records only. -/
theorem summariseForecast_index_association (daily : Daily) :
    (summariseForecast daily).length = (daily.time.getD []).length ∧
    ∀ r ∈ summariseForecast daily, ∃ i : Nat,
      (daily.time.getD [])[i]? = some r.date ∧
      r.weathercode = (daily.weathercode.getD [])[i]? ∧
      r.max = (daily.temperature_2m_max.getD [])[i]? ∧
      r.min = (daily.temperature_2m_min.getD [])[i]? := by
  constructor
  · rw [summariseForecast, List.length_mergeSort]
    simp [summariseEntries, List.enum_length]
  · intro r hr
    have hr' : r ∈ summariseEntries daily :=
      ((summariseForecast_perm daily).mem_iff).mp hr
    simp only [summariseEntries, List.mem_map] at hr'
    obtain ⟨p, hp, hpe⟩ := hr'
    subst hpe
    exact ⟨p.1, List.mem_enum_iff_getElem?.mp hp, rfl, rfl, rfl⟩

/-- C9 witness: a one-row payload, whose single output record carries
the column values of index 0. -/
theorem summariseForecast_index_association_witness :
    (∃ r ∈ summariseForecast
        { time := some [5], weathercode := some [61]
          temperature_2m_max := some [12], temperature_2m_min := some [3] },
      ∃ i : Nat,
        ((some [5] : Option (List Int)).getD [])[i]? = some r.date ∧
        r.weathercode = ((some [61] : Option (List Int)).getD [])[i]? ∧
        r.max = ((some [12] : Option (List Rat)).getD [])[i]? ∧
        r.min = ((some [3] : Option (List Rat)).getD [])[i]?) := by
  refine ⟨{ date := 5, weathercode := some 61, max := some 12, min := some 3 }, ?_, ?_⟩
  · simp [summariseForecast, summariseEntries]
  · exact (summariseForecast_index_association
      { time := some [5], weathercode := some [61]
        temperature_2m_max := some [12], temperature_2m_min := some [3] }).2
      _ (by simp [summariseForecast, summariseEntries])

/-- C5: for columnar inputs whose parallel arrays have unequal lengths,
extraction stays in bounds — each timestamp index yields an output
record, and any column shorter than the timestamp column contributes an
absent (`none`) field at the indices it does not cover, not an error. -/
theorem summariseForecast_short_columns (daily : Daily) (i : Nat)
    (hi : i < (daily.time.getD []).length) :
    ∃ r ∈ summariseForecast daily,
      (daily.time.getD [])[i]? = some r.date ∧
      r.weathercode = (daily.weathercode.getD [])[i]? ∧
      r.max = (daily.temperature_2m_max.getD [])[i]? ∧
      r.min = (daily.temperature_2m_min.getD [])[i]? ∧
      ((daily.weathercode.getD []).length ≤ i → r.weathercode = none) ∧
      ((daily.temperature_2m_max.getD []).length ≤ i → r.max = none) ∧
      ((daily.temperature_2m_min.getD []).length ≤ i → r.min = none) := by
  have hsome :
      (summariseEntries daily)[i]? = some
        { date := (daily.time.getD [])[i]
          weathercode := (daily.weathercode.getD [])[i]?
          max := (daily.temperature_2m_max.getD [])[i]?
          min := (daily.temperature_2m_min.getD [])[i]? } := by
    rw [summariseEntries_getElem, List.getElem?_eq_getElem hi]
    rfl
  refine ⟨_, ((summariseForecast_perm daily).mem_iff).mpr (List.getElem?_mem hsome),
    ?_, rfl, rfl, rfl, ?_, ?_, ?_⟩
  · exact (List.getElem?_eq_getElem hi).symm ▸ rfl
  · intro h
    exact List.getElem?_eq_none h
  · intro h
    exact List.getElem?_eq_none h
  · intro h
    exact List.getElem?_eq_none h

/-- C5 witness: a two-timestamp payload whose other columns have length
one or zero — index 1 yields a record whose non-timestamp fields are all
absent. -/
theorem summariseForecast_short_columns_witness :
    (1 : Nat) < ((some [5, 9] : Option (List Int)).getD []).length ∧
    ∃ r ∈ summariseForecast
        { time := some [5, 9], weathercode := some [61]
          temperature_2m_max := some [], temperature_2m_min := none },
      ((some [5, 9] : Option (List Int)).getD [])[1]? = some r.date ∧
      r.weathercode = ((some [61] : Option (List Int)).getD [])[1]? ∧
      r.max = ((some [] : Option (List Rat)).getD [])[1]? ∧
      r.min = ((none : Option (List Rat)).getD [])[1]? ∧
      (((some [61] : Option (List Int)).getD []).length ≤ 1 → r.weathercode = none) ∧
      (((some [] : Option (List Rat)).getD []).length ≤ 1 → r.max = none) ∧
      (((none : Option (List Rat)).getD []).length ≤ 1 → r.min = none) :=
  ⟨by decide,
    summariseForecast_short_columns
      { time := some [5, 9], weathercode := some [61]
        temperature_2m_max := some [], temperature_2m_min := none } 1 (by decide)⟩

theorem reduceBucket_localDate (off d : Int) (bkt : List WeatherSample) :
    (reduceBucket off d bkt).localDate = d := by
  cases bkt <;> rfl

theorem pickBest_split (off : Int) (rest : List WeatherSample) (best : WeatherSample) :
    (pickBest off best rest = best ∧
      ∀ s ∈ rest, distFromNoon off best ≤ distFromNoon off s) ∨
    (∃ l₁ l₂, rest = l₁ ++ pickBest off best rest :: l₂ ∧
      distFromNoon off (pickBest off best rest) < distFromNoon off best ∧
      (∀ s ∈ l₁, distFromNoon off (pickBest off best rest) < distFromNoon off s) ∧
      (∀ s ∈ l₂, distFromNoon off (pickBest off best rest) ≤ distFromNoon off s)) := by
  induction rest generalizing best with
  | nil =>
    left
    exact ⟨rfl, by simp⟩
  | cons s rest ih =>
    by_cases hc : distFromNoon off s < distFromNoon off best
    · have hred : pickBest off best (s :: rest) = pickBest off s rest := by
        simp [pickBest, hc]
      rw [hred]
      rcases ih s with ⟨heq, hall⟩ | ⟨l₁, l₂, hsplit, hlt, h₁, h₂⟩
      · rw [heq]
        right
        exact ⟨[], rest, rfl, hc, by simp, hall⟩
      · right
        refine ⟨s :: l₁, l₂, ?_, lt_trans hlt hc, ?_, h₂⟩
        · rw [List.cons_append, ← hsplit]
        · intro x hx
          rcases List.mem_cons.mp hx with hx | hx
          · rw [hx]; exact hlt
          · exact h₁ x hx
    · have hred : pickBest off best (s :: rest) = pickBest off best rest := by
        simp [pickBest, hc]
      rw [hred]
      rcases ih best with ⟨heq, hall⟩ | ⟨l₁, l₂, hsplit, hlt, h₁, h₂⟩
      · left
        refine ⟨heq, ?_⟩
        intro x hx
        rcases List.mem_cons.mp hx with hx | hx
        · rw [hx]; exact not_lt.mp hc
        · exact hall x hx
      · right
        refine ⟨s :: l₁, l₂, ?_, hlt, ?_, h₂⟩
        · rw [List.cons_append, ← hsplit]
        · intro x hx
          rcases List.mem_cons.mp hx with hx | hx
          · rw [hx]; exact lt_of_lt_of_le hlt (not_lt.mp hc)
          · exact h₁ x hx

/-- C7: for every non-empty bucket the selected representative splits
the bucket as `l₁ ++ r :: l₂` where every member before `r` is strictly
farther from local noon and every member after is no closer — i.e. `r`
minimises the distance to hour 12 and, among equidistant members, the
earliest in the original sequence wins. Its condition code and mapped
description are what `reduceBucket` copies into the day summary. -/
theorem selectRepresentative_closest_to_noon (off : Int) (bkt : List WeatherSample)
    (hne : bkt ≠ []) :
    ∃ l₁ r l₂, bkt = l₁ ++ r :: l₂ ∧
      selectRepresentative off bkt = some r ∧
      (∀ s ∈ bkt, distFromNoon off r ≤ distFromNoon off s) ∧
      (∀ s ∈ l₁, distFromNoon off r < distFromNoon off s) ∧
      (∀ s ∈ l₂, distFromNoon off r ≤ distFromNoon off s) := by
  cases bkt with
  | nil => exact absurd rfl hne
  | cons h t =>
    rcases pickBest_split off t h with ⟨heq, hall⟩ | ⟨l₁, l₂, hsplit, hlt, h₁, h₂⟩
    · refine ⟨[], h, t, rfl, ?_, ?_, by simp, hall⟩
      · show some (pickBest off h t) = some h
        rw [heq]
      · intro x hx
        rcases List.mem_cons.mp hx with hx | hx
        · rw [hx]
        · exact hall x hx
    · refine ⟨h :: l₁, pickBest off h t, l₂, ?_, rfl, ?_, ?_, h₂⟩
      · rw [List.cons_append, ← hsplit]
      · intro x hx
        rcases List.mem_cons.mp hx with hx | hx
        · rw [hx]; exact le_of_lt hlt
        · rw [hsplit] at hx
          rcases List.mem_append.mp hx with hx | hx
          · exact le_of_lt (h₁ x hx)
          · rcases List.mem_cons.mp hx with hx | hx
            · rw [hx]
            · exact h₂ x hx
      · intro x hx
        rcases List.mem_cons.mp hx with hx | hx
        · rw [hx]; exact hlt
        · exact h₁ x hx

/-- C7 witness: two samples at local hours 11 and 13 are equidistant
from noon; the split puts the earlier sample first with an empty prefix,
so it is the selected representative. -/
theorem selectRepresentative_closest_to_noon_witness :
    selectRepresentative 0 [hour11Sample, hour13Sample] = some hour11Sample ∧
    ∃ l₁ r l₂, ([hour11Sample, hour13Sample] : List WeatherSample) = l₁ ++ r :: l₂ ∧
      selectRepresentative 0 [hour11Sample, hour13Sample] = some r ∧
      (∀ s ∈ ([hour11Sample, hour13Sample] : List WeatherSample),
        distFromNoon 0 r ≤ distFromNoon 0 s) ∧
      (∀ s ∈ l₁, distFromNoon 0 r < distFromNoon 0 s) ∧
      (∀ s ∈ l₂, distFromNoon 0 r ≤ distFromNoon 0 s) :=
  ⟨rfl, selectRepresentative_closest_to_noon 0 _ (List.cons_ne_nil _ _)⟩

/-- C2: the day-aggregation output is strictly ascending in
`localDate` — pairwise strict order gives both the sorting and the
absence of duplicate days, so each `localDate` identifies its bucket. -/
theorem aggregateByLocalDay_sorted_nodup (samples : List WeatherSample) (off : Int) :
    (aggregateByLocalDay samples off).Pairwise
      (fun a b => a.localDate < b.localDate) := by
  have htrans : ∀ a b c : Int, decide (a ≤ b) = true → decide (b ≤ c) = true →
      decide (a ≤ c) = true := by
    intro a b c hab hbc
    simp only [decide_eq_true_eq] at *
    omega
  have htotal : ∀ a b : Int, (decide (a ≤ b) || decide (b ≤ a)) = true := by
    intro a b
    simp only [Bool.or_eq_true, decide_eq_true_eq]
    omega
  have hsorted := List.sorted_mergeSort htrans htotal
    ((samples.map (localDay off)).dedup)
  have hle : (dayKeys samples off).Pairwise (fun a b : Int => a ≤ b) := by
    refine List.Pairwise.imp ?_ hsorted
    intro a b hab
    simpa using hab
  have hnodup : (dayKeys samples off).Nodup :=
    ((List.mergeSort_perm _ _).nodup_iff).mpr (List.nodup_dedup _)
  have hlt : (dayKeys samples off).Pairwise (fun a b : Int => a < b) :=
    List.Sorted.lt_of_le hle hnodup
  rw [aggregateByLocalDay, List.pairwise_map]
  refine List.Pairwise.imp ?_ hlt
  intro a b hab
  rw [reduceBucket_localDate, reduceBucket_localDate]
  exact hab

/-- C1: day bucketing uses the provided timezone offset — every input
sample has an output summary whose `localDate` is
`(timestampUtc + timezoneOffsetSeconds)` floor-divided into days, and
the spec's scenario sample 2024-01-01T16:00Z aggregated with offset
+32400 lands on local day 19724 (2024-01-02 in days since the epoch),
not on its UTC day 19723 (2024-01-01). -/
theorem aggregateByLocalDay_uses_offset (samples : List WeatherSample) (off : Int)
    (s : WeatherSample) (hs : s ∈ samples) :
    (∃ d ∈ aggregateByLocalDay samples off,
      d.localDate = (s.timestampUtc + off).fdiv 86400) ∧
    (aggregateByLocalDay [sampleJan1T16Z] 32400).map DaySummary.localDate = [19724] ∧
    (∀ d ∈ aggregateByLocalDay [sampleJan1T16Z] 32400,
      d.localDate ≠ sampleJan1T16Z.timestampUtc.fdiv 86400) := by
  refine ⟨?_, ?_, ?_⟩
  · have hk : localDay off s ∈ dayKeys samples off := by
      rw [dayKeys, List.mem_mergeSort, List.mem_dedup]
      exact List.mem_map_of_mem _ hs
    refine ⟨reduceBucket off (localDay off s)
      (bucketOf samples off (localDay off s)), ?_, ?_⟩
    · rw [aggregateByLocalDay]
      exact List.mem_map_of_mem _ hk
    · rw [reduceBucket_localDate]
      rfl
  · simp +decide [aggregateByLocalDay, dayKeys, bucketOf, reduceBucket, localDay,
      sampleJan1T16Z]
  · simp +decide [aggregateByLocalDay, dayKeys, bucketOf, reduceBucket, localDay,
      sampleJan1T16Z]

/-- C1 witness: the offset theorem applied to the scenario sample
itself. -/
theorem aggregateByLocalDay_uses_offset_witness :
    sampleJan1T16Z ∈ ([sampleJan1T16Z] : List WeatherSample) ∧
    ∃ d ∈ aggregateByLocalDay [sampleJan1T16Z] 32400,
      d.localDate = (sampleJan1T16Z.timestampUtc + 32400).fdiv 86400 :=
  ⟨List.mem_singleton.mpr rfl,
    (aggregateByLocalDay_uses_offset [sampleJan1T16Z] 32400 sampleJan1T16Z
      (List.mem_singleton.mpr rfl)).1⟩

/-- C3 counterexample: a bucket holding one sample that reports a low of
10 but an instantaneous temperature of 5 and no high produces a summary
with `minTemperature = 10 > 5 = maxTemperature`, so the invariant does
not hold for every bucket of the spec's own reduction. -/
theorem daySummary_min_le_max_counterexample :
    ∃ d ∈ aggregateByLocalDay [lowAboveTempSample] 0,
      ¬ d.minTemperature ≤ d.maxTemperature := by
  simp +decide [aggregateByLocalDay, dayKeys, bucketOf, reduceBucket, localDay,
    lowAboveTempSample, sampleLow, sampleHigh]

theorem sampleLow_le_sampleHigh (s : WeatherSample)
    (h1 : ∀ m ∈ s.temperatureMin, m ≤ s.temperature)
    (h2 : ∀ m ∈ s.temperatureMax, s.temperature ≤ m) :
    sampleLow s ≤ sampleHigh s := by
  have hlo : sampleLow s ≤ s.temperature := by
    cases hm : s.temperatureMin with
    | none => simp [sampleLow, hm]
    | some m =>
      simp only [sampleLow, hm, Option.getD_some]
      exact h1 m (by rw [hm]; rfl)
  have hhi : s.temperature ≤ sampleHigh s := by
    cases hm : s.temperatureMax with
    | none => simp [sampleHigh, hm]
    | some m =>
      simp only [sampleHigh, hm, Option.getD_some]
      exact h2 m (by rw [hm]; rfl)
  exact le_trans hlo hhi

theorem foldl_min_le_init (f : WeatherSample → Rat) (l : List WeatherSample) (a : Rat) :
    l.foldl (fun acc s => min acc (f s)) a ≤ a := by
  induction l generalizing a with
  | nil => simp
  | cons h t ih => exact le_trans (ih _) (min_le_left _ _)

theorem init_le_foldl_max (f : WeatherSample → Rat) (l : List WeatherSample) (a : Rat) :
    a ≤ l.foldl (fun acc s => max acc (f s)) a := by
  induction l generalizing a with
  | nil => simp
  | cons h t ih => exact le_trans (le_max_left _ _) (ih _)

/-- C3 (amended): provided each sample's reported bounds bracket its
instantaneous temperature (`temperatureMin <= temperature` and
`temperature <= temperatureMax` whenever present — true of provider
data, but not forced by the reduction itself, as the counterexample
shows), every summary satisfies `minTemperature <= maxTemperature`; and
a sample with no reported bounds at all falls back to `temperature` for
both, so `min == max` is a valid non-error output. -/
theorem daySummary_min_le_max (samples : List WeatherSample) (off : Int)
    (hw : ∀ s ∈ samples, (∀ m ∈ s.temperatureMin, m ≤ s.temperature) ∧
      (∀ m ∈ s.temperatureMax, s.temperature ≤ m)) :
    (∀ d ∈ aggregateByLocalDay samples off,
      d.minTemperature ≤ d.maxTemperature) ∧
    (∀ s : WeatherSample, s.temperatureMin = none → s.temperatureMax = none →
      ∀ d ∈ aggregateByLocalDay [s] off,
        d.minTemperature = s.temperature ∧ d.maxTemperature = s.temperature) := by
  constructor
  · intro d hd
    rw [aggregateByLocalDay] at hd
    obtain ⟨k, hk, rfl⟩ := List.mem_map.mp hd
    cases hbkt : bucketOf samples off k with
    | nil =>
      rw [dayKeys, List.mem_mergeSort, List.mem_dedup] at hk
      obtain ⟨s₀, hs₀, hs₀k⟩ := List.mem_map.mp hk
      have : s₀ ∈ bucketOf samples off k :=
        List.mem_filter.mpr ⟨hs₀, by simp [hs₀k]⟩
      rw [hbkt] at this
      exact absurd this (List.not_mem_nil _)
    | cons h t =>
      have hh : h ∈ samples := by
        have : h ∈ bucketOf samples off k := by
          rw [hbkt]; exact List.mem_cons_self _ _
        exact (List.mem_filter.mp this).1
      have hlh := sampleLow_le_sampleHigh h (hw h hh).1 (hw h hh).2
      calc (reduceBucket off k (h :: t)).minTemperature
          ≤ sampleLow h := foldl_min_le_init _ t _
        _ ≤ sampleHigh h := hlh
        _ ≤ (reduceBucket off k (h :: t)).maxTemperature := init_le_foldl_max _ t _
  · intro s hmin hmax d hd
    simp [aggregateByLocalDay, dayKeys, bucketOf, localDay] at hd
    rw [hd]
    simp [reduceBucket, sampleLow, sampleHigh, hmin, hmax]

/-- C3 witness: a single sample with no reported bounds yields a summary
whose min and max both equal its temperature (and in particular respect
the invariant). -/
theorem daySummary_min_le_max_witness :
    (∀ d ∈ aggregateByLocalDay [hour11Sample] 0,
      d.minTemperature ≤ d.maxTemperature) ∧
    (∀ s : WeatherSample, s.temperatureMin = none → s.temperatureMax = none →
      ∀ d ∈ aggregateByLocalDay [s] 0,
        d.minTemperature = s.temperature ∧ d.maxTemperature = s.temperature) :=
  daySummary_min_le_max [hour11Sample] 0
    (by
      intro s hs
      rw [List.mem_singleton] at hs
      subst hs
      exact ⟨by simp [hour11Sample], by simp [hour11Sample]⟩)

/-- C8 witness: a 100-second difference is phrased in minutes, rounded
to 2. -/
theorem formatRelativeTime_unit_selection_witness :
    (45000 : Int) ≤ |(100000 : Int) - 0| ∧
      formatRelativeTime 100000 0 =
        RelPhrase.minutes (jsRound (((100000 - 0 : Int) : Rat) / (1000 * 60))) := by
  refine ⟨by decide, ?_⟩
  exact (formatRelativeTime_unit_selection 100000 0).2.1
    (by decide) (by decide) (by decide)

end WeatherVue
